import Mathlib

/-!
Shallow embedding of the MoZuku analysis-and-alignment pipeline
(src/mozuku-lsp/src/analyzer.cpp and src/mozuku-lsp/src/mecab_manager.cpp).

Byte strings (std::string holding raw bytes) are modelled as `List Nat`;
each entry stands for one byte.  Charset names are Lean `String`s.
The external MeCab engine is modelled as a function from the input byte
string to the optional linked list of returned nodes; the external
CaboCha engine is modelled likewise as a function returning an optional
chunk tree.  External helper components that the analyzer merely calls
through (the UTF-8 sanitizer, the charset transcoders, the feature
decoder) are fields of an environment record, since none of the verified
properties depend on their behaviour.
-/

namespace MoZuku

/-- MECAB_BOS_NODE constant from mecab.h: the begin-of-sentence sentinel. -/
def MECAB_BOS_NODE : Nat := 2

/-- MECAB_EOS_NODE constant from mecab.h: the end-of-sentence sentinel. -/
def MECAB_EOS_NODE : Nat := 3

/-- One node of the linked list returned by MeCab parseToNode.  `surface`
models the byte string std::string(n->surface, n->length), i.e. the raw
surface already truncated to the reported length; `feature` models the
byte string of n->feature (empty when the pointer is null); `stat` is the
node status field. -/
structure MecabNode where
  surface : List Nat
  feature : List Nat
  stat : Nat
deriving DecidableEq

/-- A MeCab tagger handle, modelled by its parseToNode behaviour: input
byte string to optional node list (none models a null node result). -/
def Tagger : Type := List Nat → Option (List MecabNode)

/-- Position record from analyzer.hpp: zero-based line and UTF-16
code-unit column. -/
structure Position where
  line : Nat
  character : Nat
deriving DecidableEq

/-- TokenData record populated by Analyzer::analyzeText. -/
structure TokenData where
  surface : List Nat
  line : Nat
  startChar : Nat
  endChar : Nat
  feature : List Nat
  baseForm : List Nat
  reading : List Nat
  pronunciation : List Nat
  tokenType : Nat
  tokenModifiers : List Nat
deriving DecidableEq

/-- UTF-8 lead-byte classification from computeByteOffset
(analyzer.cpp line 281): seqLen = (c >= 0xF0) ? 4 : (c >= 0xE0) ? 3 :
(c >= 0xC0) ? 2 : 1. -/
def utf8SeqLen (c : Nat) : Nat :=
  if 0xF0 ≤ c then 4 else if 0xE0 ≤ c then 3 else if 0xC0 ≤ c then 2 else 1

/-- UTF-16 code units contributed by one UTF-8 sequence, from
computeByteOffset (analyzer.cpp line 283): (seqLen == 4) ? 2 : 1. -/
def utf16Contrib (c : Nat) : Nat :=
  if utf8SeqLen c = 4 then 2 else 1

/-- Modelled from the spec: the helper `utf8ToUtf16Length` (declared in
utf16.hpp, whose implementation is not under src/) computes the UTF-16
code-unit length of a UTF-8 byte string; per the spec it contributes 2
code units for any codepoint requiring 4 UTF-8 bytes and 1 otherwise,
the same per-sequence rule as the in-source loop of computeByteOffset
(analyzer.cpp lines 278-284), which this definition reuses. -/
def utf8ToUtf16Length : List Nat → Nat
  | [] => 0
  | c :: rest => utf16Contrib c + utf8ToUtf16Length (rest.drop (utf8SeqLen c - 1))
termination_by l => l.length
decreasing_by
  simp only [List.length_cons, List.length_drop]
  omega

/-- Modelled from the spec: `computeLineStarts` (declared outside src/)
returns the byte index of the first character of each line of the text,
split on the newline byte 0x0A; byte 0 starts the first line and every
byte following a newline starts a line. -/
def computeLineStarts (text : List Nat) : List Nat :=
  0 :: (List.range text.length).filterMap
    (fun i => if text.get? i = some 10 then some (i + 1) else none)

/-- Helper for byteOffsetToPosition: walks the line-start table and
returns the count of line starts not exceeding the offset together with
the last such line start. -/
def findLineAux (offset : Nat) : List Nat → Nat → Nat → Nat × Nat
  | [], cnt, cur => (cnt, cur)
  | s :: rest, cnt, cur =>
    if s ≤ offset then findLineAux offset rest (cnt + 1) s else (cnt, cur)

/-- Modelled from the spec: `byteOffsetToPosition` (declared outside
src/) converts a byte offset into a Position using the line-start table
plus a UTF-8 to UTF-16 length scan from the start of that line, as described
in spec section 4.3 step 5. -/
def byteOffsetToPosition (text lineStarts : List Nat) (offset : Nat) : Position :=
  let p := findLineAux offset lineStarts 0 0
  { line := p.1 - 1,
    character := utf8ToUtf16Length ((text.take offset).drop p.2) }

/-- The realignment scan of Analyzer::analyzeText (analyzer.cpp lines
111-119): starting from the byte cursor, advance byte by byte while the
cursor is inside the text and the decoded surface is not an exact
byte-for-byte match at the cursor; return the final cursor value. -/
def alignFrom (clean surf : List Nat) (pos : Nat) : Nat :=
  if h : pos < clean.length then
    if surf.isPrefixOf (clean.drop pos) then pos
    else alignFrom clean surf (pos + 1)
  else pos
termination_by clean.length - pos
decreasing_by omega

theorem alignFrom_ge_aux (clean surf : List Nat) :
    ∀ fuel pos, clean.length - pos ≤ fuel → pos ≤ alignFrom clean surf pos := by
  intro fuel
  induction fuel with
  | zero =>
    intro pos hf
    rw [alignFrom]
    have hge : ¬ pos < clean.length := by omega
    simp [hge]
  | succ k ih =>
    intro pos hf
    rw [alignFrom]
    by_cases hlt : pos < clean.length
    · by_cases hpre : surf.isPrefixOf (clean.drop pos)
      · simp [hlt, hpre]
      · simp only [hlt, hpre, dite_true, if_neg, Bool.not_eq_true, dif_pos]
        have h1 : pos + 1 ≤ alignFrom clean surf (pos + 1) := ih (pos + 1) (by omega)
        have : alignFrom clean surf pos = alignFrom clean surf (pos + 1) := by
          rw [alignFrom]
          simp [hlt, hpre]
        omega
    · simp [hlt]

/-- The realignment scan never moves the cursor backwards. -/
theorem alignFrom_ge (clean surf : List Nat) (pos : Nat) :
    pos ≤ alignFrom clean surf pos :=
  alignFrom_ge_aux clean surf (clean.length - pos) pos le_rfl

/-- When the surface matches nowhere in the text the scan runs to
end-of-text. -/
theorem alignFrom_not_found (clean surf : List Nat) (pos : Nat)
    (hall : ∀ q, pos ≤ q → surf.isPrefixOf (clean.drop q) = false)
    (hle : pos ≤ clean.length) :
    alignFrom clean surf pos = clean.length := by
  have haux : ∀ fuel p, pos ≤ p → clean.length - p ≤ fuel → p ≤ clean.length →
      alignFrom clean surf p = clean.length := by
    intro fuel
    induction fuel with
    | zero =>
      intro p hp hf hple
      rw [alignFrom]
      have hge : ¬ p < clean.length := by omega
      simp [hge]
      omega
    | succ k ih =>
      intro p hp hf hple
      rw [alignFrom]
      by_cases hlt : p < clean.length
      · have hpre := hall p hp
        simp [hlt, hpre]
        exact ih (p + 1) (by omega) (by omega) (by omega)
      · simp [hlt]
        omega
  exact haux (clean.length - pos) pos le_rfl le_rfl hle

/-- Raw bit pattern of a C float, carried opaquely: the code copies chunk
scores verbatim and never computes with them, so no floating-point
semantics is modelled. -/
structure FloatBits where
  bits : Nat
deriving DecidableEq

/-- One CaboCha chunk record (cabocha.h): dependency link target, score,
and the contained token range. -/
structure CabochaChunk where
  link : Int
  score : FloatBits
  token_pos : Nat
  token_size : Nat
deriving DecidableEq

/-- A CaboCha chunk tree: the indexed chunks (a null chunk pointer is
modelled as none) and the indexed token surfaces (none models a null
token pointer or a null surface pointer). -/
structure CabochaTree where
  chunks : List (Option CabochaChunk)
  tokens : List (Option (List Nat))
deriving DecidableEq

/-- A CaboCha parser handle, modelled by its cabocha_sparse_totree
behaviour: input byte string to optional chunk tree. -/
def CabochaParser : Type := List Nat → Option CabochaTree

/-- DependencyInfo record populated by Analyzer::analyzeDependencies. -/
structure DependencyInfo where
  chunkId : Int
  headId : Int
  score : FloatBits
  text : List Nat
deriving DecidableEq

/-- The mutable members of MeCabManager (mecab_manager.hpp). -/
structure ManagerState where
  mecab_tagger : Option Tagger
  cabocha_parser_ : Option CabochaParser
  system_charset : String
  cabocha_available : Bool
  enable_cabocha : Bool

/-- The MeCabManager constructor (mecab_manager.cpp lines 27-36): null
engine handles, charset UTF-8, CaboCha unavailable. -/
def mkMeCabManager (enableCaboCha : Bool) : ManagerState :=
  { mecab_tagger := none
    cabocha_parser_ := none
    system_charset := "UTF-8"
    cabocha_available := false
    enable_cabocha := enableCaboCha }

/-- Accessor MeCabManager::getMeCabTagger, a trivial getter declared in
the header. -/
def getMeCabTagger (st : ManagerState) : Option Tagger :=
  st.mecab_tagger

/-- Accessor MeCabManager::getCaboChaParser, a trivial getter declared in
the header. -/
def getCaboChaParser (st : ManagerState) : Option CabochaParser :=
  st.cabocha_parser_

/-- Accessor MeCabManager::isCaboChaAvailable, a trivial getter of the
cabocha_available_ flag declared in the header (the spec exposes it as
the dependency-capability query). -/
def isCaboChaAvailable (st : ManagerState) : Bool :=
  st.cabocha_available

/-- SystemLibInfo record produced by discovery (mecab_manager.hpp). -/
structure SystemLibInfo where
  isAvailable : Bool
  dicPath : String
  charset : String
deriving DecidableEq

/-- A default-constructed SystemLibInfo: unavailable, empty strings. -/
def defaultSystemLibInfo : SystemLibInfo :=
  { isAvailable := false, dicPath := "", charset := "" }

/-- The externally observable world MeCabManager::initialize runs
against: the result of detectSystemMeCab (which spawns mecab-config and
reads dicrc, both outside this process) and the behaviour of
MeCab::createTagger for each argument string. -/
structure MecabEnv where
  detect : SystemLibInfo
  createTagger : String → Option Tagger

/-- The test text of the charset probe (mecab_manager.cpp lines 212 and
297): the 2-character CJK string in UTF-8, 6 bytes. -/
def testUtf8Bytes : List Nat :=
  [0xE8, 0xAA, 0xA4, 0xE8, 0xA7, 0xA3]

/-- Whether a MeCab node passes the probe check of
MeCabManager::testMeCabCharset (mecab_manager.cpp lines 300-315): a
non-sentinel node whose surface equals the test text byte for byte and
has byte length 6. -/
def probeNodeMatches (n : MecabNode) : Bool :=
  !(n.stat = MECAB_BOS_NODE || n.stat = MECAB_EOS_NODE) &&
    (n.surface = testUtf8Bytes && n.surface.length = 6)

/-- MeCabManager::testMeCabCharset (mecab_manager.cpp lines 290-322):
keep the charset when the tagger is null or the charset is already
UTF-8; otherwise parse the fixed test text and return UTF-8 when some
non-sentinel node returns the test text unchanged as a 6-byte surface,
the original charset otherwise. -/
def testMeCabCharset (tagger : Option Tagger) (originalCharset : String) : String :=
  match tagger with
  | none => originalCharset
  | some t =>
    if originalCharset = "UTF-8" then originalCharset
    else
      match t testUtf8Bytes with
      | none => originalCharset
      | some nodes =>
        if nodes.any probeNodeMatches then "UTF-8" else originalCharset

/-- Charset resolution of MeCabManager::initialize (mecab_manager.cpp
lines 61-67): the non-empty passed charset wins, then the non-empty
discovered charset, then UTF-8. -/
def resolveCharset (passed discovered : String) : String :=
  if passed ≠ "" then passed
  else if discovered ≠ "" then discovered
  else "UTF-8"

/-- The SystemLibInfo used by MeCabManager::initialize (mecab_manager.cpp
lines 51-59): run discovery only when no dictionary path was passed;
otherwise a default record with isAvailable set to true. -/
def systemInfoFor (env : MecabEnv) (mecabDicPath : String) : SystemLibInfo :=
  if mecabDicPath = "" then env.detect
  else { defaultSystemLibInfo with isAvailable := true }

/-- The MeCab argument string built by MeCabManager::initialize
(mecab_manager.cpp lines 69-78). -/
def mecabArgsFor (mecabDicPath : String) (info : SystemLibInfo) : String :=
  if mecabDicPath ≠ "" then "-d " ++ mecabDicPath
  else if info.isAvailable = true ∧ info.dicPath ≠ "" then
    "-d " ++ info.dicPath ++ "/ipadic"
  else ""

/-- The argument string of the first createTagger attempt of
MeCabManager::initialize for a given environment and dictionary path. -/
def mecabArgs (env : MecabEnv) (mecabDicPath : String) : String :=
  mecabArgsFor mecabDicPath (systemInfoFor env mecabDicPath)

/-- The CaboCha availability flag after the tagger was constructed
(mecab_manager.cpp lines 120-131): set to true when cabocha_parser_ is
non-null, left unchanged otherwise. -/
def updateCabocha (st : ManagerState) : Bool :=
  if st.cabocha_parser_.isSome then true else st.cabocha_available

/-- MeCabManager::initialize (mecab_manager.cpp lines 49-141),
instrumented with the list of argument strings passed to createTagger:
resolve discovery and charset, attempt construction with the computed
arguments, on failure retry once with empty arguments when the computed
arguments were non-empty, and on success re-probe the charset against
the constructed tagger. -/
def initMgrCore (env : MecabEnv) (st : ManagerState)
    (mecabDicPath mecabCharset : String) : Bool × ManagerState × List String :=
  let info := systemInfoFor env mecabDicPath
  let cs := resolveCharset mecabCharset info.charset
  let args := mecabArgsFor mecabDicPath info
  match env.createTagger args with
  | some t =>
    (true,
     { st with mecab_tagger := some t,
               system_charset := testMeCabCharset (some t) cs,
               cabocha_available := updateCabocha st },
     [args])
  | none =>
    if args ≠ "" then
      match env.createTagger "" with
      | some t =>
        (true,
         { st with mecab_tagger := some t,
                   system_charset := testMeCabCharset (some t) cs,
                   cabocha_available := updateCabocha st },
         [args, ""])
      | none =>
        (false, { st with mecab_tagger := none, system_charset := cs }, [args, ""])
    else
      (false, { st with mecab_tagger := none, system_charset := cs }, [args])

/-- MeCabManager::initialize without the instrumentation: the boolean
result and the state after the call. -/
def initMgr (env : MecabEnv) (st : ManagerState)
    (mecabDicPath mecabCharset : String) : Bool × ManagerState :=
  let r := initMgrCore env st mecabDicPath mecabCharset
  (r.1, r.2.1)

/-- The mecab section of MoZukuConfig (config fields consumed by
Analyzer, from the spec EngineConfig). -/
structure MecabConfig where
  dicPath : String
  charset : String
deriving DecidableEq

/-- The analysis section of MoZukuConfig. -/
structure AnalysisConfig where
  grammarCheck : Bool
deriving DecidableEq

/-- MoZukuConfig as consumed by Analyzer (analyzer.cpp lines 45-48 and
154). -/
structure MoZukuConfig where
  mecab : MecabConfig
  analysis : AnalysisConfig
deriving DecidableEq

/-- The external helper components Analyzer::analyzeText calls through:
the UTF-8 sanitizer, the two charset transcoders, and the feature
decoder (POSAnalyzer).  They live outside src/ and none of the verified
properties depend on their behaviour, so they are kept abstract. -/
structure AnalyzeEnv where
  sanitizeUTF8 : List Nat → List Nat
  utf8ToSystem : List Nat → String → List Nat
  systemToUtf8 : List Nat → String → List Nat
  parseFeatureDetails : List Nat → List Nat × List Nat × List Nat
  mapPosToType : List Nat → Nat
  computeModifiers : List Nat → Nat → Nat → List Nat → List Nat

/-- The mutable members of Analyzer (analyzer.hpp): the owned manager
state, the cached working charset, and the stored config. -/
structure AnalyzerState where
  manager : ManagerState
  system_charset : String
  config : MoZukuConfig

/-- The Analyzer constructor (analyzer.cpp lines 28-34): a fresh manager
with CaboCha enabled; the remaining members start default-constructed
(empty charset, default config). -/
def mkAnalyzer : AnalyzerState :=
  { manager := mkMeCabManager true
    system_charset := ""
    config := { mecab := { dicPath := "", charset := "" },
                analysis := { grammarCheck := false } } }

/-- Analyzer::initialize (analyzer.cpp lines 38-63): store the config,
map an empty configured dictionary path to the empty string and an empty
configured charset to UTF-8, delegate to MeCabManager::initialize, and
on success cache the resolved charset of the manager. -/
def initAnalyzer (env : MecabEnv) (a : AnalyzerState) (config : MoZukuConfig) :
    Bool × AnalyzerState :=
  let a1 := { a with config := config }
  let mecabDicPath := if config.mecab.dicPath = "" then "" else config.mecab.dicPath
  let mecabCharset := if config.mecab.charset = "" then "UTF-8" else config.mecab.charset
  let r := initMgr env a1.manager mecabDicPath mecabCharset
  if r.1 then
    (true, { a1 with manager := r.2, system_charset := r.2.system_charset })
  else
    (false, { a1 with manager := r.2 })

/-- Analyzer::isInitialized (analyzer.cpp lines 256-258): the manager
exists (always, after construction) and its tagger is non-null. -/
def isInitialized (a : AnalyzerState) : Bool :=
  (getMeCabTagger a.manager).isSome

/-- The per-node loop of Analyzer::analyzeText (analyzer.cpp lines
97-141), instrumented with the byte offset at which each emitted token
was matched: skip sentinel nodes, decode the surface and skip it when
empty, realign the cursor with the forward scan, convert the matched
offset to a position, build the token, and advance the cursor past the
matched occurrence. -/
def analyzeLoop (clean lineStarts : List Nat) (env : AnalyzeEnv) (cs : String) :
    List MecabNode → Nat → List (TokenData × Nat)
  | [], _ => []
  | n :: rest, pos =>
    if n.stat = MECAB_BOS_NODE ∨ n.stat = MECAB_EOS_NODE then
      analyzeLoop clean lineStarts env cs rest pos
    else
      let surface := env.systemToUtf8 n.surface cs
      if surface = [] then
        analyzeLoop clean lineStarts env cs rest pos
      else
        let p := alignFrom clean surface pos
        let posn := byteOffsetToPosition clean lineStarts p
        let feature := env.systemToUtf8 n.feature cs
        let fd := env.parseFeatureDetails feature
        let tok : TokenData :=
          { surface := surface
            line := posn.line
            startChar := posn.character
            endChar := posn.character + utf8ToUtf16Length surface
            feature := feature
            baseForm := fd.1
            reading := fd.2.1
            pronunciation := fd.2.2
            tokenType := env.mapPosToType feature
            tokenModifiers := env.computeModifiers clean p surface.length feature }
        (tok, p) :: analyzeLoop clean lineStarts env cs rest (p + surface.length)

/-- Analyzer::analyzeText (analyzer.cpp lines 65-149) with its matched
byte offsets and its diagnostic log: return no tokens for empty input, a
null tagger, or a null parse result; otherwise run the per-node loop
from byte cursor 0.  The debug flag only gates log lines and the token
list never depends on it. -/
def analyzeTextCore (debug : Bool) (a : AnalyzerState) (env : AnalyzeEnv)
    (text : List Nat) : List (TokenData × Nat) × List String :=
  if text = [] then ([], [])
  else
    let log1 := if debug then ["[DEBUG] Analyzing text"] else []
    let cleanText := env.sanitizeUTF8 text
    let systemText := env.utf8ToSystem cleanText a.system_charset
    match getMeCabTagger a.manager with
    | none => ([], log1 ++ ["[ERROR] MeCab tagger not available"])
    | some tagger =>
      match tagger systemText with
      | none => ([], log1 ++ ["[ERROR] MeCab parsing failed"])
      | some nodes =>
        let lineStarts := computeLineStarts cleanText
        let toks := analyzeLoop cleanText lineStarts env a.system_charset nodes 0
        (toks, log1 ++ (if debug then ["[DEBUG] Analysis completed"] else []))

/-- Analyzer::analyzeText as the caller sees it: the token list alone. -/
def analyzeText (debug : Bool) (a : AnalyzerState) (env : AnalyzeEnv)
    (text : List Nat) : List TokenData :=
  (analyzeTextCore debug a env text).1.map Prod.fst

/-- The chunk-text concatenation of Analyzer::analyzeDependencies
(analyzer.cpp lines 224-236): for each token index of the chunk range,
clipped to the token count, decode and append the token surface,
skipping null tokens and null surfaces. -/
def concatChunkTokens (tokens : List (Option (List Nat))) (env : AnalyzeEnv)
    (cs : String) (startToken stop : Nat) : List Nat :=
  ((List.range' startToken (stop - startToken)).filterMap
    (fun j =>
      match tokens.get? j with
      | some (some s) => some (env.systemToUtf8 s cs)
      | _ => none)).flatten

/-- The per-chunk loop of Analyzer::analyzeDependencies (analyzer.cpp
lines 209-240): one DependencyInfo per non-null chunk, with chunkId the
chunk index, headId the chunk link, the score copied verbatim, and the
decoded concatenation of the chunk token surfaces. -/
def depsOfTree (tree : CabochaTree) (env : AnalyzeEnv) (cs : String) :
    List DependencyInfo :=
  (List.range tree.chunks.length).filterMap
    (fun i =>
      match tree.chunks.get? i with
      | some (some chunk) =>
        some { chunkId := (i : Int)
               headId := chunk.link
               score := chunk.score
               text := concatChunkTokens tree.tokens env cs chunk.token_pos
                 (min (chunk.token_pos + chunk.token_size) tree.tokens.length) }
      | _ => none)

/-- Analyzer::analyzeDependencies, CaboCha-enabled build (analyzer.cpp
lines 179-248): empty when the capability flag is off, the parser handle
is null, or the parse yields no tree; otherwise the per-chunk loop over
the produced tree. -/
def analyzeDependencies (a : AnalyzerState) (env : AnalyzeEnv)
    (text : List Nat) : List DependencyInfo :=
  if isCaboChaAvailable a.manager = false then []
  else
    match getCaboChaParser a.manager with
    | none => []
    | some parser =>
      match parser (env.utf8ToSystem (env.sanitizeUTF8 text) a.system_charset) with
      | none => []
      | some tree => depsOfTree tree env a.system_charset

/-- Folds a sequence of MeCabManager::initialize calls (each with its
own environment and arguments) over a manager state. -/
def runInitCalls (st : ManagerState) : List (MecabEnv × String × String) → ManagerState
  | [] => st
  | (env, d, c) :: rest => runInitCalls (initMgr env st d c).2 rest

/-- Standard UTF-8 encoding of a Unicode codepoint, the reference
definition against which the byte classification of computeByteOffset is
checked (the repository itself delegates encoding to the runtime). -/
def utf8EncodeCp (cp : Nat) : List Nat :=
  if cp < 0x80 then [cp]
  else if cp < 0x800 then [0xC0 + cp / 64, 0x80 + cp % 64]
  else if cp < 0x10000 then
    [0xE0 + cp / 4096, 0x80 + (cp / 64) % 64, 0x80 + cp % 64]
  else
    [0xF0 + cp / 262144, 0x80 + (cp / 4096) % 64, 0x80 + (cp / 64) % 64,
     0x80 + cp % 64]

theorem utf8ToUtf16Length_nil : utf8ToUtf16Length [] = 0 := by
  rw [utf8ToUtf16Length.eq_def]

theorem utf8ToUtf16Length_cons (c : Nat) (rest : List Nat) :
    utf8ToUtf16Length (c :: rest) =
      utf16Contrib c + utf8ToUtf16Length (rest.drop (utf8SeqLen c - 1)) := by
  rw [utf8ToUtf16Length.eq_def]

theorem utf8SeqLen_one (c : Nat) (h : c < 0xC0) : utf8SeqLen c = 1 := by
  unfold utf8SeqLen
  rw [if_neg (by omega), if_neg (by omega), if_neg (by omega)]

theorem utf8SeqLen_two (c : Nat) (h1 : 0xC0 ≤ c) (h2 : c < 0xE0) : utf8SeqLen c = 2 := by
  unfold utf8SeqLen
  rw [if_neg (by omega), if_neg (by omega), if_pos (by omega)]

theorem utf8SeqLen_three (c : Nat) (h1 : 0xE0 ≤ c) (h2 : c < 0xF0) : utf8SeqLen c = 3 := by
  unfold utf8SeqLen
  rw [if_neg (by omega), if_pos (by omega)]

theorem utf8SeqLen_four (c : Nat) (h1 : 0xF0 ≤ c) : utf8SeqLen c = 4 := by
  unfold utf8SeqLen
  rw [if_pos (by omega)]

/-- C7: the UTF-8 to UTF-16 length conversion used for positions
classifies the lead byte of every validly encoded codepoint with the
correct sequence length, and contributes exactly 2 code units for every
codepoint encoded as a 4-byte UTF-8 sequence (equivalently, every
codepoint at or above 0x10000) and exactly 1 code unit for every other
valid codepoint. -/
theorem utf16_contribution_correct (cp : Nat) (hcp : cp < 0x110000) :
    utf8SeqLen ((utf8EncodeCp cp).headD 0) = (utf8EncodeCp cp).length ∧
    ((utf8EncodeCp cp).length = 4 ↔ 0x10000 ≤ cp) ∧
    utf16Contrib ((utf8EncodeCp cp).headD 0) =
      (if (utf8EncodeCp cp).length = 4 then 2 else 1) ∧
    utf8ToUtf16Length (utf8EncodeCp cp) =
      (if (utf8EncodeCp cp).length = 4 then 2 else 1) := by
  by_cases h1 : cp < 0x80
  · have he : utf8EncodeCp cp = [cp] := by rw [utf8EncodeCp, if_pos h1]
    have hs : utf8SeqLen cp = 1 := utf8SeqLen_one cp (by omega)
    rw [he]
    refine ⟨by simpa using hs, by simp; omega, ?_, ?_⟩
    · simp [utf16Contrib, hs]
    · rw [utf8ToUtf16Length_cons]
      simp [utf16Contrib, hs, utf8ToUtf16Length_nil]
  · by_cases h2 : cp < 0x800
    · have he : utf8EncodeCp cp = [0xC0 + cp / 64, 0x80 + cp % 64] := by
        rw [utf8EncodeCp, if_neg h1, if_pos h2]
      have hs : utf8SeqLen (0xC0 + cp / 64) = 2 := utf8SeqLen_two _ (by omega) (by omega)
      rw [he]
      refine ⟨by simpa using hs, by simp; omega, ?_, ?_⟩
      · simp [utf16Contrib, hs]
      · rw [utf8ToUtf16Length_cons]
        simp [utf16Contrib, hs, utf8ToUtf16Length_nil]
    · by_cases h3 : cp < 0x10000
      · have he : utf8EncodeCp cp =
            [0xE0 + cp / 4096, 0x80 + (cp / 64) % 64, 0x80 + cp % 64] := by
          rw [utf8EncodeCp, if_neg h1, if_neg h2, if_pos h3]
        have hs : utf8SeqLen (0xE0 + cp / 4096) = 3 :=
          utf8SeqLen_three _ (by omega) (by omega)
        rw [he]
        refine ⟨by simpa using hs, by simp; omega, ?_, ?_⟩
        · simp [utf16Contrib, hs]
        · rw [utf8ToUtf16Length_cons]
          simp [utf16Contrib, hs, utf8ToUtf16Length_nil]
      · have he : utf8EncodeCp cp =
            [0xF0 + cp / 262144, 0x80 + (cp / 4096) % 64, 0x80 + (cp / 64) % 64,
             0x80 + cp % 64] := by
          rw [utf8EncodeCp, if_neg h1, if_neg h2, if_neg h3]
        have hs : utf8SeqLen (0xF0 + cp / 262144) = 4 := utf8SeqLen_four _ (by omega)
        rw [he]
        refine ⟨by simpa using hs, by simp; omega, ?_, ?_⟩
        · simp [utf16Contrib, hs]
        · rw [utf8ToUtf16Length_cons]
          simp [utf16Contrib, hs, utf8ToUtf16Length_nil]

/-- Concrete instance of the C7 theorem at the codepoint 0x1F600, a
4-byte UTF-8 sequence contributing 2 UTF-16 code units. -/
theorem utf16_contribution_witness : utf8ToUtf16Length (utf8EncodeCp 128512) = 2 := by
  have h := (utf16_contribution_correct 128512 (by decide)).2.2.2
  rw [h]
  decide

theorem analyzeText_nil (debug : Bool) (a : AnalyzerState) (env : AnalyzeEnv) :
    analyzeText debug a env [] = [] := by
  simp [analyzeText, analyzeTextCore]

theorem analyzeText_tagger_none (debug : Bool) (a : AnalyzerState) (env : AnalyzeEnv)
    (text : List Nat) (h : getMeCabTagger a.manager = none) :
    analyzeText debug a env text = [] := by
  unfold analyzeText analyzeTextCore
  by_cases ht : text = []
  · simp [ht]
  · simp [ht, h]

theorem analyzeText_parse_none (debug : Bool) (a : AnalyzerState) (env : AnalyzeEnv)
    (text : List Nat) (t : Tagger) (h : getMeCabTagger a.manager = some t)
    (hp : t (env.utf8ToSystem (env.sanitizeUTF8 text) a.system_charset) = none) :
    analyzeText debug a env text = [] := by
  unfold analyzeText analyzeTextCore
  by_cases ht : text = []
  · simp [ht]
  · simp [ht, h, hp]

/-- C9: analyzeText returns an empty token sequence, without raising an
error, whenever the input text is empty or the primary engine is not
ready: a null tagger, or a parse call returning no node. -/
theorem analyzeText_defensive_empty (debug : Bool) (a : AnalyzerState)
    (env : AnalyzeEnv) (text : List Nat) :
    (text = [] → analyzeText debug a env text = []) ∧
    (getMeCabTagger a.manager = none → analyzeText debug a env text = []) ∧
    (∀ t, getMeCabTagger a.manager = some t →
      t (env.utf8ToSystem (env.sanitizeUTF8 text) a.system_charset) = none →
      analyzeText debug a env text = []) := by
  refine ⟨?_, ?_, ?_⟩
  · intro h
    rw [h]
    exact analyzeText_nil debug a env
  · intro h
    exact analyzeText_tagger_none debug a env text h
  · intro t ht hp
    exact analyzeText_parse_none debug a env text t ht hp

/-- Concrete identity transcoding environment used by the concrete
evaluations below. -/
def idEnv : AnalyzeEnv :=
  { sanitizeUTF8 := fun s => s
    utf8ToSystem := fun s _ => s
    systemToUtf8 := fun s _ => s
    parseFeatureDetails := fun _ => ([], [], [])
    mapPosToType := fun _ => 0
    computeModifiers := fun _ _ _ _ => [] }

/-- Concrete instance of the C9 theorem: a freshly constructed analyzer
has no tagger, so analysis of a non-empty text returns no tokens. -/
theorem analyzeText_defensive_empty_witness :
    analyzeText true mkAnalyzer idEnv [97] = [] :=
  (analyzeText_defensive_empty true mkAnalyzer idEnv [97]).2.1 rfl

/-- C10: the token list of analyzeText does not depend on the debug
flag, and with a fixed engine environment (the determinism assumption on
the external engine) two calls with identical text on the same instance
produce identical token sequences. -/
theorem analyzeText_deterministic (d1 d2 : Bool) (a : AnalyzerState)
    (env : AnalyzeEnv) (text : List Nat) :
    analyzeText d1 a env text = analyzeText d2 a env text := by
  unfold analyzeText analyzeTextCore
  by_cases ht : text = []
  · simp [ht]
  · simp only [ht, if_false]
    cases h1 : getMeCabTagger a.manager with
    | none => simp
    | some t =>
      cases h2 : t (env.utf8ToSystem (env.sanitizeUTF8 text) a.system_charset) with
      | none => simp [h2]
      | some nodes => simp [h2]

theorem probeNodeMatches_iff (n : MecabNode) :
    probeNodeMatches n = true ↔
      ¬(n.stat = MECAB_BOS_NODE ∨ n.stat = MECAB_EOS_NODE) ∧
        n.surface = testUtf8Bytes ∧ n.surface.length = 6 := by
  simp [probeNodeMatches]

theorem testMeCabCharset_none_eval (t : Tagger) (orig : String) (h : orig ≠ "UTF-8")
    (hp : t testUtf8Bytes = none) : testMeCabCharset (some t) orig = orig := by
  show (if orig = "UTF-8" then orig
        else
          match t testUtf8Bytes with
          | none => orig
          | some nodes => if nodes.any probeNodeMatches then "UTF-8" else orig) = orig
  rw [if_neg h, hp]

theorem testMeCabCharset_some_eval (t : Tagger) (orig : String) (h : orig ≠ "UTF-8")
    (nodes : List MecabNode) (hp : t testUtf8Bytes = some nodes) :
    testMeCabCharset (some t) orig =
      (if nodes.any probeNodeMatches then "UTF-8" else orig) := by
  show (if orig = "UTF-8" then orig
        else
          match t testUtf8Bytes with
          | none => orig
          | some nodes => if nodes.any probeNodeMatches then "UTF-8" else orig) = _
  rw [if_neg h, hp]

/-- C3: for every declared non-UTF-8 charset and every tagger, the
empirical charset probe overrides the charset to UTF-8 exactly when the
tagger, given the fixed 2-character test text whose UTF-8 encoding is 6
bytes, returns a non-sentinel node whose surface is byte-for-byte equal
to the test text and has byte length exactly 6; otherwise the declared
charset is kept.  The test text indeed has 6 bytes and 2 UTF-16 code
units. -/
theorem testMeCabCharset_override_iff (t : Tagger) (orig : String)
    (h : orig ≠ "UTF-8") :
    (testMeCabCharset (some t) orig = "UTF-8" ↔
      ∃ nodes, t testUtf8Bytes = some nodes ∧
        ∃ n ∈ nodes,
          ¬(n.stat = MECAB_BOS_NODE ∨ n.stat = MECAB_EOS_NODE) ∧
            n.surface = testUtf8Bytes ∧ n.surface.length = 6) ∧
    (testMeCabCharset (some t) orig ≠ "UTF-8" →
      testMeCabCharset (some t) orig = orig) ∧
    testUtf8Bytes.length = 6 ∧ utf8ToUtf16Length testUtf8Bytes = 2 := by
  have hc1 : utf8SeqLen 0xE8 = 3 := by decide
  have hc2 : utf16Contrib 0xE8 = 1 := by decide
  refine ⟨?_, ?_, by decide, ?_⟩
  · cases hp : t testUtf8Bytes with
    | none =>
      rw [testMeCabCharset_none_eval t orig h hp]
      constructor
      · intro hc
        exact absurd hc h
      · rintro ⟨nodes, hn, -⟩
        cases hn
    | some nodes =>
      rw [testMeCabCharset_some_eval t orig h nodes hp]
      by_cases hany : nodes.any probeNodeMatches
      · rw [if_pos hany]
        refine ⟨fun _ => ?_, fun _ => rfl⟩
        rcases List.any_eq_true.mp hany with ⟨n, hmem, hmatch⟩
        exact ⟨nodes, rfl, n, hmem, (probeNodeMatches_iff n).mp hmatch⟩
      · rw [if_neg hany]
        constructor
        · intro hc
          exact absurd hc h
        · rintro ⟨nodes2, hn2, n, hmem, hprops⟩
          cases hn2
          exact absurd (List.any_eq_true.mpr
            ⟨n, hmem, (probeNodeMatches_iff n).mpr hprops⟩) hany
  · cases hp : t testUtf8Bytes with
    | none =>
      intro _
      exact testMeCabCharset_none_eval t orig h hp
    | some nodes =>
      intro hne
      rw [testMeCabCharset_some_eval t orig h nodes hp] at hne ⊢
      by_cases hany : nodes.any probeNodeMatches
      · rw [if_pos hany] at hne
        exact absurd rfl hne
      · rw [if_neg hany]
  · rw [testUtf8Bytes, utf8ToUtf16Length_cons, hc1, hc2]
    norm_num [List.drop_succ_cons]
    rw [utf8ToUtf16Length_cons, hc1, hc2]
    norm_num [List.drop_succ_cons, List.drop_nil, utf8ToUtf16Length_nil]

/-- A concrete tagger that echoes the probe text as a single ordinary
node. -/
def probeTagger : Tagger :=
  fun _ => some [{ surface := testUtf8Bytes, feature := [], stat := 0 }]

/-- Concrete instance of the C3 theorem: a tagger echoing the probe text
makes the probe override an EUC-JP declaration to UTF-8. -/
theorem testMeCabCharset_override_witness :
    testMeCabCharset (some probeTagger) "EUC-JP" = "UTF-8" := by
  have h := (testMeCabCharset_override_iff probeTagger "EUC-JP" (by decide)).1
  refine h.mpr ⟨[{ surface := testUtf8Bytes, feature := [], stat := 0 }], rfl,
    { surface := testUtf8Bytes, feature := [], stat := 0 }, ?_, by decide, rfl, by decide⟩
  exact List.mem_singleton.mpr rfl

theorem testMeCabCharset_utf8 (t : Option Tagger) :
    testMeCabCharset t "UTF-8" = "UTF-8" := by
  cases t with
  | none => rfl
  | some t2 =>
    show (if ("UTF-8" : String) = "UTF-8" then "UTF-8"
          else
            match t2 testUtf8Bytes with
            | none => "UTF-8"
            | some nodes => if nodes.any probeNodeMatches then "UTF-8" else "UTF-8") = _
    rw [if_pos rfl]

theorem resolveCharset_nonempty (passed discovered : String) (h : passed ≠ "") :
    resolveCharset passed discovered = passed := by
  rw [resolveCharset, if_pos h]

theorem initMgr_utf8_charset (env : MecabEnv) (st : ManagerState) (d : String) :
    (initMgr env st d "UTF-8").1 = true →
    (initMgr env st d "UTF-8").2.system_charset = "UTF-8" := by
  simp only [initMgr, initMgrCore,
    resolveCharset_nonempty "UTF-8" (systemInfoFor env d).charset (by decide)]
  cases h1 : env.createTagger (mecabArgsFor d (systemInfoFor env d)) with
  | some t =>
    intro _
    simp [testMeCabCharset_utf8]
  | none =>
    by_cases ha : mecabArgsFor d (systemInfoFor env d) ≠ ""
    · rw [if_pos ha]
      cases h2 : env.createTagger "" with
      | some t =>
        intro _
        simp [testMeCabCharset_utf8]
      | none =>
        intro hfalse
        simp at hfalse
    · rw [if_neg ha]
      intro hfalse
      simp at hfalse

theorem initAnalyzer_empty_charset (env : MecabEnv) (a : AnalyzerState)
    (cfg : MoZukuConfig) (hcs : cfg.mecab.charset = "")
    (hok : (initAnalyzer env a cfg).1 = true) :
    (initAnalyzer env a cfg).2.system_charset = "UTF-8" := by
  have hmgr := initMgr_utf8_charset env a.manager
    (if cfg.mecab.dicPath = "" then "" else cfg.mecab.dicPath)
  simp only [initAnalyzer, hcs, if_pos rfl] at hok ⊢
  cases hr : (initMgr env a.manager
      (if cfg.mecab.dicPath = "" then "" else cfg.mecab.dicPath) "UTF-8").1 with
  | true =>
    simp [hr]
    exact hmgr hr
  | false =>
    simp [hr] at hok

/-- The environment of the C4 evaluations: discovery reports an
available dictionary declaring EUC-JP, and engine construction always
succeeds with a tagger whose parses return the empty node list. -/
def detectEucEnv : MecabEnv :=
  { detect := { isAvailable := true, dicPath := "/usr/lib/mecab/dic", charset := "EUC-JP" }
    createTagger := fun _ => some (fun _ => some []) }

/-- A configuration that supplies no dictionary path and no charset. -/
def emptyCharsetConfig : MoZukuConfig :=
  { mecab := { dicPath := "", charset := "" }
    analysis := { grammarCheck := false } }

/-- C4 counterexample: initialization through Analyzer::initialize with
no configured charset while discovery yields EUC-JP succeeds but
resolves the working charset to UTF-8, not to the discovered EUC-JP,
because Analyzer::initialize substitutes UTF-8 for the empty configured
charset before MeCabManager::initialize applies its priority. -/
theorem charset_priority_counterexample :
    emptyCharsetConfig.mecab.charset = "" ∧
    detectEucEnv.detect.charset = "EUC-JP" ∧
    (initAnalyzer detectEucEnv mkAnalyzer emptyCharsetConfig).1 = true ∧
    (initAnalyzer detectEucEnv mkAnalyzer emptyCharsetConfig).2.system_charset = "UTF-8" ∧
    (initAnalyzer detectEucEnv mkAnalyzer emptyCharsetConfig).2.system_charset ≠ "EUC-JP" :=
  ⟨rfl, rfl, rfl, rfl, by decide⟩

/-- C4 amended: MeCabManager::initialize alone resolves its charset
argument with the priority passed charset over discovered charset over
UTF-8 default; but Analyzer::initialize replaces an empty configured
charset by UTF-8 before delegating, so through Analyzer the discovered
charset is never consulted: a successful initialization with no
configured charset always yields the working charset UTF-8. -/
theorem charset_priority_amended (passed discovered : String) (env : MecabEnv)
    (a : AnalyzerState) (cfg : MoZukuConfig) :
    (passed ≠ "" → resolveCharset passed discovered = passed) ∧
    (passed = "" → discovered ≠ "" → resolveCharset passed discovered = discovered) ∧
    (passed = "" → discovered = "" → resolveCharset passed discovered = "UTF-8") ∧
    (cfg.mecab.charset = "" → (initAnalyzer env a cfg).1 = true →
      (initAnalyzer env a cfg).2.system_charset = "UTF-8") := by
  refine ⟨?_, ?_, ?_, ?_⟩
  · intro h
    exact resolveCharset_nonempty passed discovered h
  · intro h1 h2
    rw [resolveCharset, if_neg (by simp [h1]), if_pos h2]
  · intro h1 h2
    rw [resolveCharset, if_neg (by simp [h1]), if_neg (by simp [h2])]
  · intro hcs hok
    exact initAnalyzer_empty_charset env a cfg hcs hok

/-- Concrete instance of the C4 amended theorem: with an empty passed
charset the manager-level priority picks the discovered EUC-JP, while
the full Analyzer initialization with an empty configured charset
resolves to UTF-8. -/
theorem charset_priority_amended_witness :
    resolveCharset "" "EUC-JP" = "EUC-JP" ∧
    (initAnalyzer detectEucEnv mkAnalyzer emptyCharsetConfig).2.system_charset = "UTF-8" :=
  ⟨(charset_priority_amended "" "EUC-JP" detectEucEnv mkAnalyzer
      emptyCharsetConfig).2.1 rfl (by decide),
   (charset_priority_amended "" "EUC-JP" detectEucEnv mkAnalyzer
      emptyCharsetConfig).2.2.2 rfl rfl⟩

/-- C5: when primary-engine construction with the computed (explicit
dictionary) argument fails, initialize retries exactly once with the
empty argument string; when the retry also fails, or the only attempt
used the empty argument and failed, initialize returns false, the tagger
stays null so readiness reports false, and every later analyzeText call
on the resulting instance returns an empty sequence. -/
theorem initMgr_failure_behavior (env : MecabEnv) (st : ManagerState)
    (d c : String)
    (h1 : env.createTagger (mecabArgs env d) = none) :
    (mecabArgs env d ≠ "" →
      (initMgrCore env st d c).2.2 = [mecabArgs env d, ""]) ∧
    (mecabArgs env d = "" → (initMgrCore env st d c).2.2 = [""]) ∧
    (env.createTagger "" = none →
      (initMgr env st d c).1 = false ∧
      (initMgr env st d c).2.mecab_tagger = none ∧
      (∀ cs cfg,
        isInitialized
          { manager := (initMgr env st d c).2, system_charset := cs,
            config := cfg } = false) ∧
      (∀ debug cs cfg aenv text,
        analyzeText debug
          { manager := (initMgr env st d c).2, system_charset := cs,
            config := cfg } aenv text = [])) := by
  have hargs : mecabArgsFor d (systemInfoFor env d) = mecabArgs env d := rfl
  refine ⟨?_, ?_, ?_⟩
  · intro hne
    simp only [initMgrCore, hargs, h1]
    rw [if_pos hne]
    cases h2 : env.createTagger "" with
    | some t => rfl
    | none => rfl
  · intro heq
    simp only [initMgrCore, hargs, h1]
    rw [heq] at h1 ⊢
    rw [if_neg (by simp)]
  · intro h2
    have hcore : (initMgr env st d c).1 = false ∧
        (initMgr env st d c).2.mecab_tagger = none := by
      simp only [initMgr, initMgrCore, hargs, h1]
      by_cases hne : mecabArgs env d ≠ ""
      · rw [if_pos hne, h2]
        exact ⟨rfl, rfl⟩
      · rw [if_neg hne]
        exact ⟨rfl, rfl⟩
    refine ⟨hcore.1, hcore.2, ?_, ?_⟩
    · intro cs cfg
      simp [isInitialized, getMeCabTagger, hcore.2]
    · intro debug cs cfg aenv text
      exact analyzeText_tagger_none debug _ aenv text hcore.2

/-- An environment in which every engine construction attempt fails
while discovery reports an available dictionary. -/
def failEnv : MecabEnv :=
  { detect := { isAvailable := true, dicPath := "/usr/lib/mecab/dic", charset := "" }
    createTagger := fun _ => none }

/-- Concrete instance of the C5 theorem: with an explicit dictionary
path and construction failing on both attempts, the attempt list is the
explicit argument followed by the empty argument, initialize returns
false, readiness is false, and a later analyze call returns no tokens. -/
theorem initMgr_failure_witness :
    (initMgrCore failEnv (mkMeCabManager true) "/dic" "").2.2 = ["-d /dic", ""] ∧
    (initMgr failEnv (mkMeCabManager true) "/dic" "").1 = false ∧
    isInitialized
      { manager := (initMgr failEnv (mkMeCabManager true) "/dic" "").2,
        system_charset := "UTF-8", config := emptyCharsetConfig } = false ∧
    analyzeText true
      { manager := (initMgr failEnv (mkMeCabManager true) "/dic" "").2,
        system_charset := "UTF-8", config := emptyCharsetConfig } idEnv [97] = [] := by
  have h := initMgr_failure_behavior failEnv (mkMeCabManager true) "/dic" "" rfl
  exact ⟨h.1 (by decide), (h.2.2 rfl).1,
    (h.2.2 rfl).2.2.1 "UTF-8" emptyCharsetConfig,
    (h.2.2 rfl).2.2.2 true "UTF-8" emptyCharsetConfig idEnv [97]⟩

theorem initMgr_no_cabocha (env : MecabEnv) (st : ManagerState) (d c : String)
    (h1 : st.cabocha_parser_ = none) (h2 : st.cabocha_available = false) :
    (initMgr env st d c).2.cabocha_parser_ = none ∧
    (initMgr env st d c).2.cabocha_available = false := by
  have hupd : updateCabocha st = false := by
    simp [updateCabocha, h1, h2]
  simp only [initMgr, initMgrCore]
  cases hc1 : env.createTagger (mecabArgsFor d (systemInfoFor env d)) with
  | some t =>
    simp [h1, hupd]
  | none =>
    by_cases ha : mecabArgsFor d (systemInfoFor env d) ≠ ""
    · rw [if_pos ha]
      cases hc2 : env.createTagger "" with
      | some t => simp [h1, hupd]
      | none => simp [h1, h2]
    · rw [if_neg ha]
      simp [h1, h2]

theorem runInitCalls_no_cabocha (calls : List (MecabEnv × String × String)) :
    ∀ st : ManagerState, st.cabocha_parser_ = none → st.cabocha_available = false →
      (runInitCalls st calls).cabocha_parser_ = none ∧
      (runInitCalls st calls).cabocha_available = false := by
  induction calls with
  | nil =>
    intro st h1 h2
    exact ⟨h1, h2⟩
  | cons call rest ih =>
    intro st h1 h2
    obtain ⟨env, d, c⟩ := call
    have h := initMgr_no_cabocha env st d c h1 h2
    exact ih (initMgr env st d c).2 h.1 h.2

theorem analyzeDependencies_unavailable (a : AnalyzerState) (env : AnalyzeEnv)
    (text : List Nat) (h : a.manager.cabocha_available = false) :
    analyzeDependencies a env text = [] := by
  unfold analyzeDependencies
  rw [if_pos]
  exact h

/-- C6: after any sequence of MeCabManager::initialize calls on a
freshly constructed manager, the CaboCha parser handle is still null
(the constructor sets it to null and initialize only tests it, never
constructs it), the availability flag is still false, the capability
query reports false, and analyzeDependencies returns the empty sequence
for every analyzer built on that manager state. -/
theorem cabocha_never_available (b : Bool)
    (calls : List (MecabEnv × String × String)) :
    (runInitCalls (mkMeCabManager b) calls).cabocha_parser_ = none ∧
    (runInitCalls (mkMeCabManager b) calls).cabocha_available = false ∧
    isCaboChaAvailable (runInitCalls (mkMeCabManager b) calls) = false ∧
    ∀ (cs : String) (cfg : MoZukuConfig) (env : AnalyzeEnv) (text : List Nat),
      analyzeDependencies
        { manager := runInitCalls (mkMeCabManager b) calls,
          system_charset := cs, config := cfg } env text = [] := by
  have h := runInitCalls_no_cabocha calls (mkMeCabManager b) rfl rfl
  refine ⟨h.1, h.2, h.2, ?_⟩
  intro cs cfg env text
  exact analyzeDependencies_unavailable _ env text h.2

theorem analyzeLoop_offset_ge (clean ls : List Nat) (env : AnalyzeEnv) (cs : String) :
    ∀ (nodes : List MecabNode) (pos : Nat) (q : TokenData × Nat),
      q ∈ analyzeLoop clean ls env cs nodes pos → pos ≤ q.2 := by
  intro nodes
  induction nodes with
  | nil =>
    intro pos q hq
    simp [analyzeLoop] at hq
  | cons n rest ih =>
    intro pos q hq
    simp only [analyzeLoop] at hq
    by_cases hs : n.stat = MECAB_BOS_NODE ∨ n.stat = MECAB_EOS_NODE
    · rw [if_pos hs] at hq
      exact ih pos q hq
    · rw [if_neg hs] at hq
      by_cases he : env.systemToUtf8 n.surface cs = []
      · rw [if_pos he] at hq
        exact ih pos q hq
      · rw [if_neg he] at hq
        rcases List.mem_cons.mp hq with hq1 | hq2
        · have h2 : q.2 = alignFrom clean (env.systemToUtf8 n.surface cs) pos := by
            rw [hq1]
          rw [h2]
          exact alignFrom_ge clean (env.systemToUtf8 n.surface cs) pos
        · have hg := ih (alignFrom clean (env.systemToUtf8 n.surface cs) pos +
            (env.systemToUtf8 n.surface cs).length) q hq2
          have hal := alignFrom_ge clean (env.systemToUtf8 n.surface cs) pos
          omega

theorem analyzeLoop_pairwise (clean ls : List Nat) (env : AnalyzeEnv) (cs : String) :
    ∀ (nodes : List MecabNode) (pos : Nat),
      List.Pairwise (fun x y : TokenData × Nat => x.2 + x.1.surface.length ≤ y.2)
        (analyzeLoop clean ls env cs nodes pos) := by
  intro nodes
  induction nodes with
  | nil =>
    intro pos
    simp [analyzeLoop]
  | cons n rest ih =>
    intro pos
    simp only [analyzeLoop]
    by_cases hs : n.stat = MECAB_BOS_NODE ∨ n.stat = MECAB_EOS_NODE
    · rw [if_pos hs]
      exact ih pos
    · rw [if_neg hs]
      by_cases he : env.systemToUtf8 n.surface cs = []
      · rw [if_pos he]
        exact ih pos
      · rw [if_neg he]
        refine List.Pairwise.cons ?_ (ih _)
        intro y hy
        exact analyzeLoop_offset_ge clean ls env cs rest
          (alignFrom clean (env.systemToUtf8 n.surface cs) pos +
            (env.systemToUtf8 n.surface cs).length) y hy

theorem analyzeLoop_span (clean ls : List Nat) (env : AnalyzeEnv) (cs : String) :
    ∀ (nodes : List MecabNode) (pos : Nat) (q : TokenData × Nat),
      q ∈ analyzeLoop clean ls env cs nodes pos →
      q.1.endChar = q.1.startChar + utf8ToUtf16Length q.1.surface := by
  intro nodes
  induction nodes with
  | nil =>
    intro pos q hq
    simp [analyzeLoop] at hq
  | cons n rest ih =>
    intro pos q hq
    simp only [analyzeLoop] at hq
    by_cases hs : n.stat = MECAB_BOS_NODE ∨ n.stat = MECAB_EOS_NODE
    · rw [if_pos hs] at hq
      exact ih pos q hq
    · rw [if_neg hs] at hq
      by_cases he : env.systemToUtf8 n.surface cs = []
      · rw [if_pos he] at hq
        exact ih pos q hq
      · rw [if_neg he] at hq
        rcases List.mem_cons.mp hq with hq1 | hq2
        · rw [hq1]
        · exact ih _ q hq2

/-- C1: for every input, the byte offsets at which successive tokens of
analyzeText are matched are non-decreasing with non-overlapping matched
byte ranges (each offset plus its surface byte length is at most every
later offset), and every produced token satisfies endChar minus
startChar equal to the UTF-16 code-unit length of its surface. -/
theorem analyzeText_alignment_invariants (debug : Bool) (a : AnalyzerState)
    (env : AnalyzeEnv) (text : List Nat) :
    List.Pairwise (fun x y : TokenData × Nat => x.2 + x.1.surface.length ≤ y.2)
      (analyzeTextCore debug a env text).1 ∧
    ∀ q ∈ (analyzeTextCore debug a env text).1,
      q.1.endChar - q.1.startChar = utf8ToUtf16Length q.1.surface := by
  unfold analyzeTextCore
  by_cases ht : text = []
  · simp [ht]
  · simp only [ht, if_false]
    cases h1 : getMeCabTagger a.manager with
    | none => simp
    | some t =>
      cases h2 : t (env.utf8ToSystem (env.sanitizeUTF8 text) a.system_charset) with
      | none => simp [h2]
      | some nodes =>
        simp only [h2]
        constructor
        · exact analyzeLoop_pairwise _ _ env a.system_charset nodes 0
        · intro q hq
          have hsp := analyzeLoop_span _ _ env a.system_charset nodes 0 q hq
          omega

/-- C2: when a decoded non-empty surface of a non-sentinel node does not
occur in the text at or after the current byte cursor, the realignment
scan advances the cursor to end-of-text, the token is still emitted with
its position derived from the end-of-text offset, and the loop continues
with the remaining nodes from the cursor advanced past end-of-text; no
error path exists. -/
theorem analyzeLoop_surface_not_found (clean ls : List Nat) (env : AnalyzeEnv)
    (cs : String) (n : MecabNode) (rest : List MecabNode) (pos : Nat)
    (hstat : ¬(n.stat = MECAB_BOS_NODE ∨ n.stat = MECAB_EOS_NODE))
    (hsurf : env.systemToUtf8 n.surface cs ≠ [])
    (hpos : pos ≤ clean.length)
    (hnf : ∀ q, pos ≤ q →
      (env.systemToUtf8 n.surface cs).isPrefixOf (clean.drop q) = false) :
    ∃ tok : TokenData,
      analyzeLoop clean ls env cs (n :: rest) pos =
        (tok, clean.length) ::
          analyzeLoop clean ls env cs rest
            (clean.length + (env.systemToUtf8 n.surface cs).length) ∧
      tok.surface = env.systemToUtf8 n.surface cs ∧
      tok.line = (byteOffsetToPosition clean ls clean.length).line ∧
      tok.startChar = (byteOffsetToPosition clean ls clean.length).character := by
  have hal := alignFrom_not_found clean (env.systemToUtf8 n.surface cs) pos hnf hpos
  refine ⟨{ surface := env.systemToUtf8 n.surface cs
            line := (byteOffsetToPosition clean ls clean.length).line
            startChar := (byteOffsetToPosition clean ls clean.length).character
            endChar := (byteOffsetToPosition clean ls clean.length).character +
              utf8ToUtf16Length (env.systemToUtf8 n.surface cs)
            feature := env.systemToUtf8 n.feature cs
            baseForm := (env.parseFeatureDetails (env.systemToUtf8 n.feature cs)).1
            reading := (env.parseFeatureDetails (env.systemToUtf8 n.feature cs)).2.1
            pronunciation := (env.parseFeatureDetails (env.systemToUtf8 n.feature cs)).2.2
            tokenType := env.mapPosToType (env.systemToUtf8 n.feature cs)
            tokenModifiers := env.computeModifiers clean clean.length
              (env.systemToUtf8 n.surface cs).length (env.systemToUtf8 n.feature cs) },
    ?_, rfl, rfl, rfl⟩
  simp only [analyzeLoop]
  rw [if_neg hstat, if_neg hsurf, hal]

/-- Concrete instance of the C2 theorem: a one-byte text in which the
surface of the single node does not occur; the token is emitted at the
end-of-text offset 1 and the loop continues. -/
theorem analyzeLoop_surface_not_found_witness :
    ∃ tok : TokenData,
      analyzeLoop [97] (computeLineStarts [97]) idEnv "UTF-8"
          [{ surface := [98], feature := [], stat := 0 }] 0 =
        (tok, ([97] : List Nat).length) ::
          analyzeLoop [97] (computeLineStarts [97]) idEnv "UTF-8" []
            (([97] : List Nat).length + (idEnv.systemToUtf8 [98] "UTF-8").length) ∧
      tok.surface = idEnv.systemToUtf8 [98] "UTF-8" ∧
      tok.line = (byteOffsetToPosition [97] (computeLineStarts [97])
        ([97] : List Nat).length).line ∧
      tok.startChar = (byteOffsetToPosition [97] (computeLineStarts [97])
        ([97] : List Nat).length).character := by
  refine analyzeLoop_surface_not_found [97] (computeLineStarts [97]) idEnv "UTF-8"
    { surface := [98], feature := [], stat := 0 } [] 0
    (by decide) (by decide) (by decide) ?_
  intro q _
  cases q with
  | zero => decide
  | succ k => simp [List.isPrefixOf]

theorem depsOfTree_pairwise (tree : CabochaTree) (env : AnalyzeEnv) (cs : String) :
    List.Pairwise (fun x y : DependencyInfo => x.chunkId < y.chunkId)
      (depsOfTree tree env cs) := by
  unfold depsOfTree
  refine List.Pairwise.filterMap _ ?_ (List.pairwise_lt_range tree.chunks.length)
  intro i j hij b hb b2 hb2
  rw [Option.mem_def] at hb hb2
  have hbi : b.chunkId = (i : Int) := by
    cases hc : tree.chunks.get? i with
    | none =>
      rw [hc] at hb
      simp at hb
    | some oc =>
      cases oc with
      | none =>
        rw [hc] at hb
        simp at hb
      | some chunk =>
        rw [hc] at hb
        simp at hb
        rw [← hb]
  have hbj : b2.chunkId = (j : Int) := by
    cases hc : tree.chunks.get? j with
    | none =>
      rw [hc] at hb2
      simp at hb2
    | some oc =>
      cases oc with
      | none =>
        rw [hc] at hb2
        simp at hb2
      | some chunk =>
        rw [hc] at hb2
        simp at hb2
        rw [← hb2]
  rw [hbi, hbj]
  exact Int.ofNat_lt.mpr hij

/-- C8 amended: analyzeDependencies returns an empty sequence, not an
error, whenever the secondary-engine capability is absent; when a chunk
tree is produced, the emitted chunkId values (the indices of the
non-null chunks in engine emission order) are strictly increasing and
hence distinct, and they are consecutive 0, 1, 2, ... only when no chunk
pointer is null. -/
theorem analyzeDependencies_ordered (a : AnalyzerState) (env : AnalyzeEnv)
    (text : List Nat) :
    (isCaboChaAvailable a.manager = false → analyzeDependencies a env text = []) ∧
    List.Pairwise (fun x y : DependencyInfo => x.chunkId < y.chunkId)
      (analyzeDependencies a env text) := by
  constructor
  · intro h
    exact analyzeDependencies_unavailable a env text h
  · unfold analyzeDependencies
    by_cases hav : isCaboChaAvailable a.manager = false
    · rw [if_pos hav]
      exact List.Pairwise.nil
    · rw [if_neg hav]
      split
      · exact List.Pairwise.nil
      · split
        · exact List.Pairwise.nil
        · exact depsOfTree_pairwise _ env a.system_charset

/-- A tree whose chunk pointer at index 0 is null and whose chunk at
index 1 is present. -/
def nullFirstChunkTree : CabochaTree :=
  { chunks := [none, some { link := -1, score := { bits := 0 }, token_pos := 0, token_size := 0 }]
    tokens := [] }

/-- An analyzer state with the secondary-engine capability present whose
parse yields the tree with a null first chunk. -/
def nullChunkState : AnalyzerState :=
  { manager :=
      { mecab_tagger := none
        cabocha_parser_ := some (fun _ => some nullFirstChunkTree)
        system_charset := "UTF-8"
        cabocha_available := true
        enable_cabocha := true }
    system_charset := "UTF-8"
    config := emptyCharsetConfig }

/-- C8 counterexample: with the capability present and a produced chunk
tree whose chunk pointer at index 0 is null, the emitted chunkId
sequence is [1], which differs from the consecutive sequence 0, 1, 2,
... of the same length, so chunkId values are not always 0, 1, 2, .... -/
theorem chunkIds_not_consecutive :
    (analyzeDependencies nullChunkState idEnv []).map DependencyInfo.chunkId = [1] ∧
    (analyzeDependencies nullChunkState idEnv []).map DependencyInfo.chunkId ≠
      (List.range (analyzeDependencies nullChunkState idEnv []).length).map
        (fun i => (i : Int)) := by
  constructor
  · rfl
  · decide

/-- Concrete instance of the C8 amended theorem: on a fresh analyzer the
capability is absent and dependency analysis returns the empty list. -/
theorem analyzeDependencies_ordered_witness :
    analyzeDependencies mkAnalyzer idEnv [97] = [] :=
  (analyzeDependencies_ordered mkAnalyzer idEnv [97]).1 rfl

/-- A ready analyzer state whose tagger returns one ordinary node with
surface of one byte. -/
def readyState : AnalyzerState :=
  { manager :=
      { mecab_tagger := some (fun _ => some [{ surface := [97], feature := [], stat := 0 }])
        cabocha_parser_ := none
        system_charset := "UTF-8"
        cabocha_available := false
        enable_cabocha := true }
    system_charset := "UTF-8"
    config := emptyCharsetConfig }

/-- Concrete instance of the C1 theorem on a ready analyzer with a
one-node parse of a one-byte text. -/
theorem analyzeText_alignment_invariants_witness :
    List.Pairwise (fun x y : TokenData × Nat => x.2 + x.1.surface.length ≤ y.2)
      (analyzeTextCore true readyState idEnv [97]).1 :=
  (analyzeText_alignment_invariants true readyState idEnv [97]).1
